import Mathlib

/-!
Verification of the grok-video plugin core (src/main.py): URL extraction,
stream reading, retry policy, per-group rate limiting and the per-user
single-flight guard.  Python strings are modelled as Lean `String`s, with
all operations implemented over the underlying character lists so that
every definition evaluates by kernel reduction.  Python `dict`/JSON values
are modelled by the inductive type `Json`; timestamps are rationals.
-/

namespace GrokVideo

/-! ### Character and string primitives (models of Python str operations) -/

/-- The double-quote character. -/
def quoteChar : Char := Char.ofNat 34

/-- The apostrophe character. -/
def aposChar : Char := Char.ofNat 39

/-- Model of Python `s.startswith(p)` over character lists (first argument
is the string, second the pattern). -/
def lcStartsWith : List Char → List Char → Bool
  | _, [] => true
  | [], _ :: _ => false
  | c :: cs, p :: ps => c == p && lcStartsWith cs ps

/-- Substring containment over character lists: model of Python `p in s`. -/
def lcContainsAux : List Char → List Char → Bool
  | [], p => p.isEmpty
  | cs@(_ :: rest), p => lcStartsWith cs p || lcContainsAux rest p

/-- Model of Python `pat in hay` for strings. -/
def strContains (hay pat : String) : Bool := lcContainsAux hay.data pat.data

/-- Model of Python `s.endswith(p)` over character lists. -/
def lcEndsWith (cs p : List Char) : Bool := lcStartsWith cs.reverse p.reverse

/-- ASCII whitespace, as stripped by Python `str.strip()` (the source only
ever strips ASCII SSE lines). -/
def isWsChar (c : Char) : Bool :=
  c == ' ' || c.toNat == 9 || c.toNat == 10 || c.toNat == 13 || c.toNat == 11 || c.toNat == 12

/-- Model of Python `s.strip()`. -/
def lcTrim (cs : List Char) : List Char :=
  ((cs.dropWhile isWsChar).reverse.dropWhile isWsChar).reverse

/-- String-level `strip()`. -/
def strTrim (s : String) : String := ⟨lcTrim s.data⟩

/-- Model of Python `s.lower()` (the URLs handled are ASCII). -/
def lowerList (cs : List Char) : List Char := cs.map Char.toLower

/-- Model of Python slicing `s[:400]`, used for the diagnostic snippet. -/
def truncate400 (s : String) : String := ⟨s.data.take 400⟩

/-- Everything after the first occurrence of `pat` in `s`: model of
Python `s.split(pat, 1)[1]` (defined when `pat` occurs in `s`). -/
def afterFirst : List Char → List Char → List Char
  | [], _ => []
  | cs@(_ :: rest), p => if lcStartsWith cs p then cs.drop p.length else afterFirst rest p

/-- Model of Python `"".join(parts)`. -/
def strJoin (parts : List String) : String := parts.foldl (fun acc s => acc ++ s) ""

/-! ### JSON value model (for parsed stream chunks) -/

/-- Model of a decoded JSON value as handled by the Python code. -/
inductive Json where
  | nul : Json
  | boolean : Bool → Json
  | num : Int → Json
  | str : String → Json
  | arr : List Json → Json
  | obj : List (String × Json) → Json
deriving Repr

/-- Dictionary lookup: model of Python `d.get(k)` / `k in d` on a dict whose
keys are unique. -/
def jLookup (fields : List (String × Json)) (k : String) : Option Json :=
  match fields with
  | [] => none
  | (k2, v) :: rest => if k2 == k then some v else jLookup rest k

/-! ### Validation gate: `_is_valid_video_url` -/

/-- The characters rejected by the gate (`invalid_chars` in the source). -/
def invalidChars : List Char :=
  ['<', '>', quoteChar, aposChar, Char.ofNat 10, Char.ofNat 13, Char.ofNat 9]

/-- Embedding of `_is_valid_video_url` (src/main.py lines 457-475). -/
def isValidVideoUrl (url : String) : Bool :=
  if url.data.length < 10 then false
  else if !(lcStartsWith url.data "http://".data || lcStartsWith url.data "https://".data) then
    false
  else if !(lcEndsWith (lowerList url.data) ".mp4".data)
          && !(lcContainsAux (lowerList url.data) ".mp4".data) then false
  else if invalidChars.any (fun c => url.data.contains c) then false
  else true

/-! ### Structured extraction: `_try_structured_extraction` -/

/-- Scan of the items of one `attachments`/`media`/`files` list: an item
contributes its `url` field when that field is a string ending in `.mp4`. -/
def scanItems : List Json → Option String
  | [] => none
  | .obj itf :: rest =>
      (match jLookup itf "url" with
       | some (.str url) => if lcEndsWith url.data ".mp4".data then some url else scanItems rest
       | _ => scanItems rest)
  | _ :: rest => scanItems rest

/-- The loop `for field in ["attachments", "media", "files"]` over the
message object. -/
def scanFields (mf : List (String × Json)) : List String → Option String
  | [] => none
  | f :: fs =>
      match jLookup mf f with
      | some (.arr items) =>
          (match scanItems items with
           | some u => some u
           | none => scanFields mf fs)
      | _ => scanFields mf fs

/-- The `choices[0].message` part of `_try_structured_extraction`.  In the
source, indexing an empty/non-list `choices`, or attribute access on a
non-dict choice or message, raises and the surrounding `except` returns
`None`; those branches are therefore `none` here. -/
def structuredChoices (fields : List (String × Json)) : Option String :=
  match (jLookup fields "choices").getD (.arr [.obj []]) with
  | .arr (c0 :: _) =>
      (match c0 with
       | .obj cf =>
           (match (jLookup cf "message").getD (.obj []) with
            | .obj mf => scanFields mf ["attachments", "media", "files"]
            | _ => none)
       | _ => none)
  | _ => none

/-- Embedding of `_try_structured_extraction` (src/main.py lines 347-377).
A non-dict argument raises inside the `try` and the handler returns `None`.
A present `video_url` that is not an http(s) string falls through to the
`choices` logic, exactly as in the source (no `else` on that `if`). -/
def tryStructuredExtraction (responseData : Json) : Option String :=
  match responseData with
  | .obj fields =>
      (match jLookup fields "video_url" with
       | some (.str url) =>
           if lcStartsWith url.data "http://".data || lcStartsWith url.data "https://".data then
             some url
           else structuredChoices fields
       | _ => structuredChoices fields)
  | _ => none

/-! ### A small backtracking regex engine

The four extraction strategies use `re.search`/`re.findall` with the
`IGNORECASE` flag.  Each pattern is compiled by hand into a token list;
`matchToks` enumerates the possible remainders in exactly the preference
order of Python's backtracking engine (greedy quantifiers: longest first),
so taking the first remainder that lets the rest of the pattern match
reproduces `re` semantics for these patterns. -/

/-- One token of a compiled pattern: a case-insensitive literal, a single
character of a class, a greedy star/plus over a class, a greedy optional
literal (`x?`), and the optional query-string group `(?:\?cls*)?`. -/
inductive RTok where
  | lit : List Char → RTok
  | cls1 : (Char → Bool) → RTok
  | star : (Char → Bool) → RTok
  | plus : (Char → Bool) → RTok
  | optLit : List Char → RTok
  | optQm : (Char → Bool) → RTok

/-- Case-insensitive removal of the literal `p` from the front of `cs`
(the `IGNORECASE` flag makes every literal match either case). -/
def dropLitCI : List Char → List Char → Option (List Char)
  | [], cs => some cs
  | _ :: _, [] => none
  | p :: ps, c :: cs => if p.toLower == c.toLower then dropLitCI ps cs else none

/-- Length of the maximal prefix of `cs` whose characters satisfy `p`. -/
def runLen (p : Char → Bool) : List Char → Nat
  | [] => 0
  | c :: cs => if p c then runLen p cs + 1 else 0

/-- The remainders a greedy `cls*` can leave, longest consumption first. -/
def restsDesc (p : Char → Bool) (cs : List Char) : List (List Char) :=
  let k := runLen p cs
  (List.range (k + 1)).map (fun i => cs.drop (k - i))

/-- The remainders a greedy `cls+` can leave (at least one character),
longest consumption first. -/
def restsDesc1 (p : Char → Bool) (cs : List Char) : List (List Char) :=
  let k := runLen p cs
  (List.range k).map (fun i => cs.drop (k - i))

/-- All remainders after matching the token list against a prefix of `cs`,
in backtracking preference order. -/
def matchToks : List RTok → List Char → List (List Char)
  | [], cs => [cs]
  | .lit s :: ts, cs =>
      (match dropLitCI s cs with
       | some cs2 => matchToks ts cs2
       | none => [])
  | .cls1 p :: ts, cs =>
      (match cs with
       | c :: cs2 => if p c then matchToks ts cs2 else []
       | [] => [])
  | .star p :: ts, cs => (restsDesc p cs).flatMap (matchToks ts)
  | .plus p :: ts, cs => (restsDesc1 p cs).flatMap (matchToks ts)
  | .optLit s :: ts, cs =>
      ((match dropLitCI s cs with
        | some cs2 => [cs2]
        | none => []) ++ [cs]).flatMap (matchToks ts)
  | .optQm p :: ts, cs =>
      ((match cs with
        | c :: cs2 => if c == '?' then restsDesc p cs2 else []
        | [] => []) ++ [cs]).flatMap (matchToks ts)

/-- First element of `l` on which `f` yields a value (library order). -/
def firstSome (l : List α) (f : α → Option β) : Option β :=
  match l with
  | [] => none
  | a :: as2 =>
      (match f a with
       | some b => some b
       | none => firstSome as2 f)

/-- Match a pattern split as prefix / capture group / suffix at the start of
`cs`; returns the captured characters and the remainder after the whole
match, honouring backtracking preference order. -/
def matchCapAt (pre grp post : List RTok) (cs : List Char) :
    Option (List Char × List Char) :=
  firstSome (matchToks pre cs) fun r1 =>
    firstSome (matchToks grp r1) fun r2 =>
      firstSome (matchToks post r2) fun r3 =>
        some (r1.take (r1.length - r2.length), r3)

/-- Model of `re.search`: leftmost match wins (scan start positions left to
right). -/
def searchCap (pre grp post : List RTok) : List Char → Option (List Char × List Char)
  | [] => matchCapAt pre grp post []
  | cs@(_ :: rest) =>
      (match matchCapAt pre grp post cs with
       | some r => some r
       | none => searchCap pre grp post rest)

/-- One step of `re.findall`: leftmost match, returning the capture and the
remainder after the match. -/
def findAllAux (pre grp post : List RTok) : Nat → List Char → List (List Char)
  | 0, _ => []
  | fuel + 1, cs =>
      match searchCap pre grp post cs with
      | none => []
      | some (cap, rest) =>
          if rest.length < cs.length then cap :: findAllAux pre grp post fuel rest
          else [cap]

/-- Model of `re.findall` with a single capture group (the patterns used
never match the empty string, so matches strictly consume input). -/
def findAllCap (pre grp post : List RTok) (cs : List Char) : List (List Char) :=
  findAllAux pre grp post cs.length cs

/-! ### The compiled extraction patterns -/

/-- Class `[^>]`. -/
def notGt (c : Char) : Bool := c != '>'

/-- Class `["\']`. -/
def isQuote (c : Char) : Bool := c == quoteChar || c == aposChar

/-- Class `[^"\'>]`. -/
def notQuoteGt (c : Char) : Bool := !(isQuote c) && c != '>'

/-- Class `[^\s<>"\')\]\}]` of the bare-URL pattern. -/
def urlChar (c : Char) : Bool :=
  !(isWsChar c) && c != '<' && c != '>' && c != quoteChar && c != aposChar
    && c != ')' && c != ']' && c.toNat != 125

/-- Class `[^\]]`. -/
def notRBracket (c : Char) : Bool := c != ']'

/-- Class `[^\)]`. -/
def notRParen (c : Char) : Bool := c != ')'

/-- Class `[^\s]`. -/
def nonWs (c : Char) : Bool := !(isWsChar c)

/-- Pattern `<video[^>]*src=["\']([^"\'>]+)["\'][^>]*>`, split around its
capture group. -/
def videoTagPre : List RTok := [.lit "<video".data, .star notGt, .lit "src=".data, .cls1 isQuote]

/-- Capture group of the video-tag pattern. -/
def videoTagGrp : List RTok := [.plus notQuoteGt]

/-- Suffix of the video-tag pattern. -/
def videoTagPost : List RTok := [.cls1 isQuote, .star notGt, .lit ">".data]

/-- Pattern `src=["\']([^"\'>]+\.mp4[^"\'>]*)["\']`, prefix part. -/
def srcMp4Pre : List RTok := [.lit "src=".data, .cls1 isQuote]

/-- Capture group of the src-attribute pattern. -/
def srcMp4Grp : List RTok := [.plus notQuoteGt, .lit ".mp4".data, .star notQuoteGt]

/-- Suffix of the src-attribute pattern. -/
def srcMp4Post : List RTok := [.cls1 isQuote]

/-- Pattern `(https?://[^\s<>"\')\]\}]+\.mp4(?:\?[^\s<>"\')\]\}]*)?)`: the
whole pattern is the capture group. -/
def directUrlGrp : List RTok :=
  [.lit "http".data, .optLit "s".data, .lit "://".data, .plus urlChar,
   .lit ".mp4".data, .optQm urlChar]

/-- Markdown link pattern `!?\[[^\]]*\]\(([^\)]+\.mp4[^\)]*)\)`, prefix. -/
def mdLinkPre : List RTok :=
  [.optLit "!".data, .lit "[".data, .star notRBracket, .lit "]".data, .lit "(".data]

/-- Capture group of the Markdown link pattern. -/
def mdLinkGrp : List RTok := [.plus notRParen, .lit ".mp4".data, .star notRParen]

/-- Suffix of the Markdown link pattern. -/
def mdLinkPost : List RTok := [.lit ")".data]

/-- Markdown reference pattern `!?\[[^\]]*\]:\s*([^\s]+\.mp4[^\s]*)`, prefix. -/
def mdRefPre : List RTok :=
  [.optLit "!".data, .lit "[".data, .star notRBracket, .lit "]:".data, .star isWsChar]

/-- Capture group of the Markdown reference pattern. -/
def mdRefGrp : List RTok := [.plus nonWs, .lit ".mp4".data, .star nonWs]

/-- Suffix of the Markdown reference pattern (empty). -/
def mdRefPost : List RTok := []

/-! ### Text extraction strategies -/

/-- Shared shape of the strategy loops: search one pattern, validate its
first match, and yield nothing when the match fails the gate (the loop then
moves on to the next pattern). -/
def tryPatternOnce (pre grp post : List RTok) (content : String) : Option String :=
  match searchCap pre grp post content.data with
  | some (cap, _) => if isValidVideoUrl ⟨cap⟩ then some (⟨cap⟩ : String) else none
  | none => none

/-- Embedding of `_extract_from_html_tag` (src/main.py lines 405-424),
including the case-sensitive `"<video" not in content or "src=" not in
content` pre-filter that precedes the case-insensitive regexes. -/
def extractFromHtmlTag (content : String) : Option String :=
  if !(strContains content "<video") || !(strContains content "src=") then none
  else
    match tryPatternOnce videoTagPre videoTagGrp videoTagPost content with
    | some url => some url
    | none => tryPatternOnce srcMp4Pre srcMp4Grp srcMp4Post content

/-- Embedding of `_extract_direct_url` (src/main.py lines 426-437): every
`findall` match is tried in order and the first one passing the gate is
returned. -/
def extractDirectUrl (content : String) : Option String :=
  firstSome (findAllCap [] directUrlGrp [] content.data) fun cap =>
    if isValidVideoUrl ⟨cap⟩ then some (⟨cap⟩ : String) else none

/-- Embedding of `_extract_from_markdown` (src/main.py lines 439-455). -/
def extractFromMarkdown (content : String) : Option String :=
  match tryPatternOnce mdLinkPre mdLinkGrp mdLinkPost content with
  | some url => some url
  | none => tryPatternOnce mdRefPre mdRefGrp mdRefPost content

/-- Embedding of `_try_content_extraction` (src/main.py lines 379-403):
HTML tag, then bare URL, then Markdown, first success wins. -/
def tryContentExtraction (content : String) : Option String :=
  match extractFromHtmlTag content with
  | some url => some url
  | none =>
      (match extractDirectUrl content with
       | some url => some url
       | none => extractFromMarkdown content)

/-! ### The streaming loop of `_call_grok_api` -/

/-- The per-frame extraction step (src/main.py lines 269-276): content
extraction over the accumulated text runs first; structured extraction on
the frame object is consulted only when it yields nothing. -/
def frameExtract (contentJoined : String) (chunk : Json) : Option String :=
  match tryContentExtraction contentJoined with
  | some url => some url
  | none => tryStructuredExtraction chunk

/-- The content appended to the accumulator for one decoded frame
(src/main.py lines 254-267): `choices[0].delta.content` when `delta` is a
dict, else `choices[0].message.content` when `message` is a dict; any other
shape appends nothing (either a false `isinstance` test or an exception
swallowed by the inner `except: pass`). -/
def appendContent (chunk : Json) : List String :=
  match chunk with
  | .obj fields =>
      (match jLookup fields "choices" with
       | some (.arr (c0 :: _)) =>
           (match c0 with
            | .obj cf =>
                (match jLookup cf "delta" with
                 | some (.obj df) =>
                     (match jLookup df "content" with
                      | some (.str s) => [s]
                      | _ => [])
                 | _ =>
                     (match jLookup cf "message" with
                      | some (.obj mf) =>
                          (match jLookup mf "content" with
                           | some (.str s) => [s]
                           | _ => [])
                      | _ => []))
            | _ => [])
       | _ => [])
  | _ => []

/-- The line loop of `_call_grok_api` (src/main.py lines 239-276), with
JSON decoding abstracted as the oracle `parse` (`json.loads` succeeding
with a value, or raising).  Returns an early-extracted URL together with
the accumulator at exit. -/
def streamLoop (parse : String → Option Json) :
    List String → List String → Option String × List String
  | [], acc => (none, acc)
  | line :: rest, acc =>
      if line == "" then streamLoop parse rest acc
      else
        let l := strTrim line
        if !(lcStartsWith l.data "data:".data) then streamLoop parse rest acc
        else
          let payloadStr := strTrim ⟨afterFirst l.data "data:".data⟩
          if payloadStr == "[DONE]" then (none, acc)
          else
            match parse payloadStr with
            | none => streamLoop parse rest acc
            | some chunk =>
                let acc2 := acc ++ appendContent chunk
                (match frameExtract (strJoin acc2) chunk with
                 | some url => (some url, acc2)
                 | none => streamLoop parse rest acc2)

/-- The terminal extraction-miss message of the stream reader. -/
def noUrlMsg : String := "API响应中未包含有效的视频URL"

/-- Reading one 200 response body (src/main.py lines 238-283): the line
loop, then one final extraction pass over the accumulated text. -/
def readStream (parse : String → Option Json) (lines : List String) :
    Option String × Option String :=
  match streamLoop parse lines [] with
  | (some url, _) => (some url, none)
  | (none, acc) =>
      (match tryContentExtraction (strJoin acc) with
       | some url => (some url, none)
       | none => (none, some noUrlMsg))

/-! ### The retry loop of `_call_grok_api` -/

/-- What one attempt encounters: a timeout exception, another exception, or
an HTTP response with a status, a raw body (for the diagnostic snippet) and
the stream lines. -/
inductive AttemptOutcome where
  | timeout : AttemptOutcome
  | exc : String → AttemptOutcome
  | response : Nat → String → List String → AttemptOutcome

/-- Result of one attempt: `done` is a `return` from the function body,
`retryable` a caught timeout/exception subject to the retry policy. -/
inductive AttemptStep where
  | done : Option String → Option String → AttemptStep
  | retryable : String → AttemptStep

/-- The 403 authorization failure message. -/
def authMsg : String := "API访问被拒绝，请检查密钥和权限"

/-- The non-200 failure message with its truncated body snippet. -/
def statusMsg (status : Nat) (body : String) : String :=
  "API请求失败 (状态码: " ++ toString status ++ "): " ++ truncate400 body

/-- The timeout message, naming the configured read timeout. -/
def timeoutMsg (timeoutSeconds : Nat) : String :=
  "请求超时 (" ++ toString timeoutSeconds ++ "秒)"

/-- The generic exception message. -/
def excMsg (e : String) : String := "请求异常: " ++ e

/-- The fallthrough message when the loop exhausts without returning. -/
def allFailedMsg : String := "所有重试均失败"

/-- The body of one attempt (src/main.py lines 228-296): status handling
(403 distinct, other non-200 with snippet, both immediate returns), stream
reading on 200, and classification of exceptions as retryable. -/
def runAttempt (timeoutSeconds : Nat) (parse : String → Option Json)
    (o : AttemptOutcome) : AttemptStep :=
  match o with
  | .timeout => .retryable (timeoutMsg timeoutSeconds)
  | .exc e => .retryable (excMsg e)
  | .response status body lines =>
      if status == 403 then .done none (some authMsg)
      else if status != 200 then .done none (some (statusMsg status body))
      else
        (match readStream parse lines with
         | (some url, _) => .done (some url) none
         | (none, e) => .done none e)

/-- The retry loop (src/main.py lines 220-298), recursing on the remaining
attempts; `outcomes i` is what attempt `i` encounters.  Returns the
function result together with the number of attempts made and the number of
`asyncio.sleep(1)` delays taken. -/
def callLoop (timeoutSeconds : Nat) (parse : String → Option Json)
    (outcomes : Nat → AttemptOutcome) (i : Nat) :
    Nat → (Option String × Option String) × Nat × Nat
  | 0 => ((none, some allFailedMsg), 0, 0)
  | rem + 1 =>
      match runAttempt timeoutSeconds parse (outcomes i) with
      | .done url err => ((url, err), 1, 0)
      | .retryable err =>
          if rem == 0 then ((none, some err), 1, 0)
          else
            let r := callLoop timeoutSeconds parse outcomes (i + 1) rem
            (r.1, r.2.1 + 1, r.2.2 + 1)

/-- Embedding of `_call_grok_api` (src/main.py lines 182-298): the missing
API-key guard, then the retry loop. -/
def callGrokApi (apiKey : String) (maxRetryAttempts timeoutSeconds : Nat)
    (parse : String → Option Json) (outcomes : Nat → AttemptOutcome) :
    (Option String × Option String) × Nat × Nat :=
  if apiKey == "" then ((none, some "未配置API密钥"), 0, 0)
  else callLoop timeoutSeconds parse outcomes 0 maxRetryAttempts

/-! ### The per-group rate limiter of `_check_group_access` -/

/-- One rate bucket: `{"window_start": float, "count": int}`.  The source
only ever subtracts and compares timestamps, so they are modelled as
integers. -/
structure Bucket where
  windowStart : ℤ
  count : Nat
deriving Repr, DecidableEq

/-- The rejection message, naming the limit and the window. -/
def rateLimitMsg (maxCalls windowSeconds : Nat) : String :=
  "本群调用已达上限（" ++ toString maxCalls ++ "次/" ++ toString windowSeconds
    ++ "秒），请稍后再试"

/-- The rate-limit critical section (src/main.py lines 100-116) for one
group: window reset, limit check, then increment-and-store.  Returns the
rejection message (if any) and the group's stored bucket afterwards; on
rejection the store is left untouched (the `return` precedes the store). -/
def rateCheck (maxCalls windowSeconds : Nat) (stored : Option Bucket) (now : ℤ) :
    Option String × Option Bucket :=
  let b := stored.getD ⟨now, 0⟩
  let p := if now - b.windowStart ≥ (windowSeconds : ℤ) then (now, (0 : Nat))
    else (b.windowStart, b.count)
  if p.2 ≥ maxCalls then (some (rateLimitMsg maxCalls windowSeconds), stored)
  else (none, some ⟨p.1, p.2 + 1⟩)

/-- Group-control configuration of `_check_group_access`. -/
structure AccessCfg where
  groupControlMode : String
  groupList : List String
  rateLimitEnabled : Bool
  rateLimitWindowSeconds : Nat
  rateLimitMaxCalls : Nat

/-- The body of `_check_group_access` (src/main.py lines 79-116) projected
onto the requesting group's bucket: whitelist/blacklist checks first, then
(still inside `if group_id:`) the rate-limit critical section. -/
def checkGroupAccessBody (cfg : AccessCfg) (groupId : Option String)
    (stored : Option Bucket) (now : ℤ) : Option String × Option Bucket :=
  match groupId with
  | none => (none, stored)
  | some g =>
      if cfg.groupControlMode == "whitelist" && !(cfg.groupList.contains g) then
        (some "当前群组未被授权使用视频生成功能", stored)
      else if cfg.groupControlMode == "blacklist" && cfg.groupList.contains g then
        (some "当前群组已被限制使用视频生成功能", stored)
      else if cfg.rateLimitEnabled then
        rateCheck cfg.rateLimitMaxCalls cfg.rateLimitWindowSeconds stored now
      else (none, stored)

/-- The `try/except` wrapper of `_check_group_access` (src/main.py lines
78-122): a normally completed body yields its own result; any exception
raised inside the check yields `None`, i.e. access granted.  The bucket
component reflects whatever mutations happened before the raise. -/
def checkGroupAccess (body : Except String (Option String × Option Bucket))
    (bucketOnExc : Option Bucket) : Option String × Option Bucket :=
  match body with
  | .ok r => r
  | .error _ => (none, bucketOnExc)

/-! ### The command pipeline and the single-flight guard -/

/-- The user-visible replies of `cmd_generate_video` before a task starts. -/
inductive Reply where
  | rejected : String → Reply
  | busy : Reply
  | needImage : Reply
  | ack : Reply
deriving Repr, DecidableEq

/-- Embedding of `cmd_generate_video` (src/main.py lines 640-674) projected
onto one group's bucket and one user's in-flight entry: the access check
runs first (consuming a rate slot on success), then the busy check against
`_processing_tasks`, then the image-presence check, and only then is the
task recorded and started.  The access outcome is passed in, wrapped as in
`checkGroupAccess`. -/
def cmdGenerate (accessOutcome : Except String (Option String × Option Bucket))
    (bucketOnExc : Option Bucket) (entry : Option String) (hasImage : Bool)
    (newTaskId : String) : Reply × Option Bucket × Option String × Bool :=
  let a := checkGroupAccess accessOutcome bucketOnExc
  match a.1 with
  | some msg => (.rejected msg, a.2, entry, false)
  | none =>
      if entry.isSome then (.busy, a.2, entry, false)
      else if !hasImage then (.needImage, a.2, entry, false)
      else (.ack, a.2, some newTaskId, true)

/-- The composed handler: the access check actually ran and completed
normally (the body is total in this model). -/
def cmdGenerateRun (cfg : AccessCfg) (groupId : Option String)
    (stored : Option Bucket) (now : ℤ) (entry : Option String)
    (hasImage : Bool) (newTaskId : String) :
    Reply × Option Bucket × Option String × Bool :=
  cmdGenerate (.ok (checkGroupAccessBody cfg groupId stored now)) stored
    entry hasImage newTaskId

/-- The `finally` cleanup of `_async_generate_video` (src/main.py lines
631-635): the user's entry is removed only when it stores the completing
task's identifier. -/
def taskCleanup (entry : Option String) (taskId : String) : Option String :=
  match entry with
  | some t => if t == taskId then none else some t
  | none => none

/-! ### Helper lemmas -/

/-- Strings differing within their first four characters are distinct. -/
theorem strNeOfTake4 (s t : String) (h : s.data.take 4 ≠ t.data.take 4) : s ≠ t :=
  fun he => h (by rw [he])

/-- A strategy loop body returns only candidates that pass the gate. -/
theorem tryPatternOnce_sound (pre grp post : List RTok) (content url : String)
    (h : tryPatternOnce pre grp post content = some url) : isValidVideoUrl url = true := by
  unfold tryPatternOnce at h
  split at h
  · split at h
    · cases h
      assumption
    · exact Option.noConfusion h
  · exact Option.noConfusion h

/-- The validated scan of `findall` results returns only gate-passing URLs. -/
theorem firstSome_valid_sound (l : List (List Char)) (url : String)
    (h : firstSome l
      (fun cap => if isValidVideoUrl ⟨cap⟩ then some (⟨cap⟩ : String) else none) = some url) :
    isValidVideoUrl url = true := by
  induction l with
  | nil => exact absurd h (by simp [firstSome])
  | cons a as2 ih =>
      rw [firstSome] at h
      by_cases hv : isValidVideoUrl ⟨a⟩
      · simp only [hv, if_true] at h
        cases h
        exact hv
      · simp only [hv, if_false, Bool.false_eq_true] at h
        exact ih h

/-- The HTML strategy returns only gate-passing URLs, and only when both
lowercase markers occur in the text. -/
theorem extractFromHtmlTag_sound (content url : String)
    (h : extractFromHtmlTag content = some url) :
    isValidVideoUrl url = true ∧ strContains content "<video" = true
      ∧ strContains content "src=" = true := by
  unfold extractFromHtmlTag at h
  by_cases h1 : strContains content "<video"
  · by_cases h2 : strContains content "src="
    · simp only [h1, h2, Bool.not_true, Bool.false_or, Bool.or_false, if_false,
        Bool.false_eq_true] at h
      refine ⟨?_, h1, h2⟩
      cases hp : tryPatternOnce videoTagPre videoTagGrp videoTagPost content with
      | some u => rw [hp] at h; cases h; exact tryPatternOnce_sound _ _ _ _ _ hp
      | none => rw [hp] at h; exact tryPatternOnce_sound _ _ _ _ _ h
    · simp only [h2, Bool.not_false, Bool.or_true, if_true] at h
      exact absurd h (by simp)
  · simp only [h1, Bool.not_false, Bool.true_or, if_true] at h
    exact absurd h (by simp)

/-- The bare-URL strategy returns only gate-passing URLs. -/
theorem extractDirectUrl_sound (content url : String)
    (h : extractDirectUrl content = some url) : isValidVideoUrl url = true :=
  firstSome_valid_sound _ _ h

/-- The Markdown strategy returns only gate-passing URLs. -/
theorem extractFromMarkdown_sound (content url : String)
    (h : extractFromMarkdown content = some url) : isValidVideoUrl url = true := by
  unfold extractFromMarkdown at h
  cases hp : tryPatternOnce mdLinkPre mdLinkGrp mdLinkPost content with
  | some u => rw [hp] at h; cases h; exact tryPatternOnce_sound _ _ _ _ _ hp
  | none => rw [hp] at h; exact tryPatternOnce_sound _ _ _ _ _ h

/-- Every URL produced by the text strategies passes the validation gate. -/
theorem tryContentExtraction_sound (content url : String)
    (h : tryContentExtraction content = some url) : isValidVideoUrl url = true := by
  unfold tryContentExtraction at h
  cases h1 : extractFromHtmlTag content with
  | some u => rw [h1] at h; cases h; exact (extractFromHtmlTag_sound _ _ h1).1
  | none =>
      rw [h1] at h
      cases h2 : extractDirectUrl content with
      | some u => rw [h2] at h; cases h; exact extractDirectUrl_sound _ _ h2
      | none => rw [h2] at h; exact extractFromMarkdown_sound _ _ h

/-- An attachments/media/files item is returned only with a `.mp4` suffix. -/
theorem scanItems_sound (items : List Json) (url : String)
    (h : scanItems items = some url) : lcEndsWith url.data ".mp4".data = true := by
  induction items with
  | nil => exact absurd h (by simp [scanItems])
  | cons it rest ih =>
      cases it with
      | obj itf =>
          rw [scanItems] at h
          split at h
          · split at h
            · cases h
              assumption
            · exact ih h
          · exact ih h
      | nul =>
          rw [scanItems] at h
          · exact ih h
          · intro itf he; cases he
      | boolean b =>
          rw [scanItems] at h
          · exact ih h
          · intro itf he; cases he
      | num n =>
          rw [scanItems] at h
          · exact ih h
          · intro itf he; cases he
      | str s =>
          rw [scanItems] at h
          · exact ih h
          · intro itf he; cases he
      | arr xs =>
          rw [scanItems] at h
          · exact ih h
          · intro itf he; cases he

/-- The field loop of structured extraction returns only `.mp4` URLs. -/
theorem scanFields_sound (mf : List (String × Json)) (fs : List String) (url : String)
    (h : scanFields mf fs = some url) : lcEndsWith url.data ".mp4".data = true := by
  induction fs with
  | nil => exact absurd h (by simp [scanFields])
  | cons f fs2 ih =>
      rw [scanFields] at h
      split at h
      · split at h
        next u hi => cases h; exact scanItems_sound _ _ hi
        next => exact ih h
      · exact ih h

/-- The choices part of structured extraction returns only `.mp4` URLs. -/
theorem structuredChoices_sound (fields : List (String × Json)) (url : String)
    (h : structuredChoices fields = some url) : lcEndsWith url.data ".mp4".data = true := by
  unfold structuredChoices at h
  split at h
  · split at h
    · split at h
      · exact scanFields_sound _ _ _ h
      · exact Option.noConfusion h
    · exact Option.noConfusion h
  · exact Option.noConfusion h

/-- Every URL produced by structured extraction starts with an http(s)
scheme or ends with `.mp4` (the two weak checks the source applies). -/
theorem tryStructuredExtraction_sound (rd : Json) (url : String)
    (h : tryStructuredExtraction rd = some url) :
    (lcStartsWith url.data "http://".data || lcStartsWith url.data "https://".data) = true
      ∨ lcEndsWith url.data ".mp4".data = true := by
  cases rd with
  | obj fields =>
      rw [tryStructuredExtraction] at h
      split at h
      · split at h
        next hs => cases h; exact Or.inl hs
        next => exact Or.inr (structuredChoices_sound _ _ h)
      · exact Or.inr (structuredChoices_sound _ _ h)
  | nul => exact absurd h (by simp [tryStructuredExtraction])
  | boolean b => exact absurd h (by simp [tryStructuredExtraction])
  | num n => exact absurd h (by simp [tryStructuredExtraction])
  | str s => exact absurd h (by simp [tryStructuredExtraction])
  | arr xs => exact absurd h (by simp [tryStructuredExtraction])

/-! ### Claim C1 -/

/-- A concrete frame carrying a valid structured `video_url` and, in its
delta content, a different text-extractable URL. -/
def c1Chunk : Json :=
  .obj [("video_url", .str "https://b.example/s.mp4"),
        ("choices", .arr [.obj [("delta",
          .obj [("content", .str "see https://a.example/t.mp4 done")])]])]

/-- A parse oracle decoding the single frame payload of the C1 stream. -/
def c1Parse : String → Option Json := fun s => if s == "frame1" then some c1Chunk else none

/-- C1 counterexample: a streamed frame whose structured object carries a
valid `video_url` (`https://b.example/s.mp4`), yet extraction returns the
text-scanned URL from the accumulated delta content instead — structured
extraction does not take precedence over text extraction. -/
theorem C1_counterexample :
    tryStructuredExtraction c1Chunk = some "https://b.example/s.mp4"
      ∧ readStream c1Parse ["data: frame1"] = (some "https://a.example/t.mp4", none)
      ∧ ("https://a.example/t.mp4" : String) ≠ "https://b.example/s.mp4" :=
  ⟨rfl, rfl, by decide⟩

/-- C1 amended: in the streaming loop the text-scanning strategies take
precedence; whenever the structured frame object yields a URL, the
per-frame step returns the text-extracted URL when the accumulated text
yields one, and only otherwise the structured URL. -/
theorem C1_amended (acc : String) (chunk : Json) (url : String)
    (h : tryStructuredExtraction chunk = some url) :
    frameExtract acc chunk = some ((tryContentExtraction acc).getD url) := by
  unfold frameExtract
  cases ht : tryContentExtraction acc with
  | some u => rfl
  | none => simpa using h

/-- C1 witness: the amended claim evaluated on the concrete C1 frame with
an empty accumulator. -/
theorem C1_witness :
    frameExtract "" c1Chunk = some ((tryContentExtraction "").getD "https://b.example/s.mp4") :=
  C1_amended "" c1Chunk "https://b.example/s.mp4" rfl

/-! ### Claim C3 -/

/-- C3 counterexample: the structured strategy returns the candidate
`https://ab.cd` even though it fails the validation gate (no `.mp4`
marker), and the per-frame extraction step propagates it — the gate is not
applied to every candidate. -/
theorem C3_counterexample :
    tryStructuredExtraction (Json.obj [("video_url", Json.str "https://ab.cd")])
        = some "https://ab.cd"
      ∧ isValidVideoUrl "https://ab.cd" = false
      ∧ frameExtract "" (Json.obj [("video_url", Json.str "https://ab.cd")])
        = some "https://ab.cd" :=
  ⟨rfl, rfl, rfl⟩

/-- C3 amended: the validation gate is applied to every candidate of the
three text strategies (HTML tag, bare URL, Markdown), which therefore
return only gate-passing URLs; structured extraction instead applies its
own weaker checks, so its result is only guaranteed to start with an
http(s) scheme (the `video_url` field) or to end in `.mp4` (an
`attachments`/`media`/`files` entry). -/
theorem C3_amended :
    (∀ content url, tryContentExtraction content = some url → isValidVideoUrl url = true)
      ∧ (∀ rd url, tryStructuredExtraction rd = some url →
          (lcStartsWith url.data "http://".data || lcStartsWith url.data "https://".data) = true
            ∨ lcEndsWith url.data ".mp4".data = true) :=
  ⟨tryContentExtraction_sound, tryStructuredExtraction_sound⟩

/-- C3 witness: the amended claim evaluated on a concrete text extraction
and a concrete structured extraction. -/
theorem C3_witness :
    isValidVideoUrl "https://cdn.example/x.mp4" = true
      ∧ ((lcStartsWith ("https://ab.cd" : String).data "http://".data
          || lcStartsWith ("https://ab.cd" : String).data "https://".data) = true
        ∨ lcEndsWith ("https://ab.cd" : String).data ".mp4".data = true) :=
  ⟨C3_amended.1 "go https://cdn.example/x.mp4 now" "https://cdn.example/x.mp4" rfl,
   C3_amended.2 (Json.obj [("video_url", Json.str "https://ab.cd")]) "https://ab.cd" rfl⟩

/-! ### Claim C8 -/

/-- C8 counterexample: the HTML strategy's regexes are case-insensitive,
but a case-sensitive pre-filter requires the literal lowercase `<video`
and `src=`; the same gate-valid tag in upper case, and a bare lowercase
`src=".mp4"` attribute without `<video`, both yield none instead of the
matching URL. -/
theorem C8_counterexample :
    extractFromHtmlTag "<video src=\"https://cdn.example/x.mp4\"></video>"
        = some "https://cdn.example/x.mp4"
      ∧ isValidVideoUrl "https://cdn.example/x.mp4" = true
      ∧ extractFromHtmlTag "<VIDEO SRC=\"https://cdn.example/x.mp4\"></VIDEO>" = none
      ∧ extractFromHtmlTag "a src=\"https://cdn.example/x.mp4\" b" = none :=
  ⟨rfl, rfl, rfl, rfl⟩

/-- C8 amended: the two patterns are matched case-insensitively only after
a case-sensitive pre-filter requiring the lowercase substrings `<video`
and `src=` in the text; a text lacking either marker yields none even when
a case-insensitive match with a gate-valid URL exists, and any URL the
strategy does return passes the gate with both markers present. -/
theorem C8_amended (content : String) :
    ((strContains content "<video" = false ∨ strContains content "src=" = false) →
        extractFromHtmlTag content = none)
      ∧ (∀ url, extractFromHtmlTag content = some url →
          isValidVideoUrl url = true ∧ strContains content "<video" = true
            ∧ strContains content "src=" = true) := by
  constructor
  · intro hguard
    rcases hguard with hg | hg <;> simp [extractFromHtmlTag, hg]
  · intro url h
    exact extractFromHtmlTag_sound content url h

/-- C8 witness: the amended claim evaluated on the upper-case tag (yields
none) and on the lower-case tag (yields a gate-valid URL). -/
theorem C8_witness :
    extractFromHtmlTag "<VIDEO SRC=\"https://cdn.example/x.mp4\"></VIDEO>" = none
      ∧ (isValidVideoUrl "https://cdn.example/x.mp4" = true
        ∧ strContains "<video src=\"https://cdn.example/x.mp4\"></video>" "<video" = true
        ∧ strContains "<video src=\"https://cdn.example/x.mp4\"></video>" "src=" = true) :=
  ⟨(C8_amended "<VIDEO SRC=\"https://cdn.example/x.mp4\"></VIDEO>").1 (Or.inl rfl),
   (C8_amended "<video src=\"https://cdn.example/x.mp4\"></video>").2
     "https://cdn.example/x.mp4" rfl⟩

/-! ### Retry-loop lemmas -/

/-- An attempt whose body returns ends the loop at once: one attempt, no
delay. -/
theorem callLoop_first_done (tS : Nat) (parse : String → Option Json)
    (outcomes : Nat → AttemptOutcome) (i rem : Nat) (url err : Option String)
    (h : runAttempt tS parse (outcomes i) = .done url err) :
    callLoop tS parse outcomes i (rem + 1) = ((url, err), 1, 0) := by
  rw [callLoop, h]

/-- When every attempt times out, the loop makes every configured attempt,
sleeps between consecutive ones only, and surfaces the timeout message. -/
theorem callLoop_all_timeout (tS : Nat) (parse : String → Option Json)
    (outcomes : Nat → AttemptOutcome) (hall : ∀ j, outcomes j = .timeout) :
    ∀ rem i, 1 ≤ rem →
      callLoop tS parse outcomes i rem = ((none, some (timeoutMsg tS)), rem, rem - 1) := by
  intro rem
  induction rem with
  | zero => intro i hr; omega
  | succ r ih =>
      intro i _
      rw [callLoop, hall i]
      show (match AttemptStep.retryable (timeoutMsg tS) with
        | .done url err => ((url, err), 1, 0)
        | .retryable err =>
            if r == 0 then ((none, some err), 1, 0)
            else
              let res := callLoop tS parse outcomes (i + 1) r
              (res.1, res.2.1 + 1, res.2.2 + 1)) = ((none, some (timeoutMsg tS)), r + 1, r + 1 - 1)
      cases r with
      | zero => rfl
      | succ r2 =>
          simp only [Nat.succ_ne_zero, Nat.add_one_ne_zero, beq_iff_eq, if_false]
          rw [ih (i + 1) (by omega)]
          simp

/-- When the first `k` attempts fail retryably and attempt `k` returns, the
loop makes `k + 1` attempts with `k` delays and yields attempt `k`'s
result. -/
theorem callLoop_done_at (tS : Nat) (parse : String → Option Json)
    (outcomes : Nat → AttemptOutcome) (url err : Option String) :
    ∀ (k i rem : Nat), k < rem →
      (∀ j, j < k → ∃ e, runAttempt tS parse (outcomes (i + j)) = .retryable e) →
      runAttempt tS parse (outcomes (i + k)) = .done url err →
      callLoop tS parse outcomes i rem = ((url, err), k + 1, k) := by
  intro k
  induction k with
  | zero =>
      intro i rem hlt hre hdone
      obtain ⟨r, rfl⟩ : ∃ r, rem = r + 1 := ⟨rem - 1, by omega⟩
      exact callLoop_first_done tS parse outcomes i r url err hdone
  | succ k2 ih =>
      intro i rem hlt hre hdone
      obtain ⟨r, rfl⟩ : ∃ r, rem = r + 1 := ⟨rem - 1, by omega⟩
      obtain ⟨e, he⟩ := hre 0 (by omega)
      have he2 : runAttempt tS parse (outcomes i) = .retryable e := he
      rw [callLoop, he2]
      have hr : (r == 0) = false := by
        have : r ≠ 0 := by omega
        simpa using this
      rw [hr]
      have harg : ∀ j, (i + 1) + j = i + (j + 1) := by intro j; omega
      have hrec : callLoop tS parse outcomes (i + 1) r = ((url, err), k2 + 1, k2) := by
        refine ih (i + 1) r (by omega) (fun j hj => ?_) ?_
        · rw [harg j]
          exact hre (j + 1) (by omega)
        · rw [harg k2]
          exact hdone
      simp only [Bool.false_eq_true, if_false, hrec]

/-! ### Claim C2 -/

/-- C2 counterexample: configured for 3 attempts against an upstream that
answers 500 on every attempt, the call returns after exactly one attempt —
a non-200 status is not retried up to the configured attempt count. -/
theorem C2_counterexample :
    callGrokApi "key" 3 180 (fun _ => none) (fun _ => .response 500 "ERR" [])
        = ((none, some (statusMsg 500 "ERR")), 1, 0)
      ∧ (1 : Nat) ≠ 3 :=
  ⟨rfl, by decide⟩

/-- C2 amended: a non-200 status is a terminal failure for the whole
operation, not just the attempt: the first attempt's non-200 response ends
the call immediately with no retry and no delay; 403 is reported distinctly
as an authorization failure and other statuses carry a response-body
snippet truncated to at most 400 characters. -/
theorem C2_amended (apiKey : String) (mA tS : Nat) (parse : String → Option Json)
    (outcomes : Nat → AttemptOutcome) (s : Nat) (body : String) (lines : List String)
    (hkey : apiKey ≠ "") (hmA : 1 ≤ mA)
    (h0 : outcomes 0 = .response s body lines) (hs : s ≠ 200) :
    callGrokApi apiKey mA tS parse outcomes
        = ((none, some (if s == 403 then authMsg else statusMsg s body)), 1, 0)
      ∧ (truncate400 body).data.length ≤ 400 := by
  constructor
  · obtain ⟨r, rfl⟩ : ∃ r, mA = r + 1 := ⟨mA - 1, by omega⟩
    have hk : (apiKey == "") = false := by simpa using hkey
    unfold callGrokApi
    rw [hk]
    show callLoop tS parse outcomes 0 (r + 1) = _
    refine callLoop_first_done tS parse outcomes 0 r _ _ ?_
    rw [h0]
    by_cases h403 : (s == 403) = true
    · simp only [runAttempt, h403, if_true]
    · have h403f : (s == 403) = false := by simpa using h403
      have h200 : (s != 200) = true := by simpa using hs
      simp only [runAttempt, h403f, h200, Bool.false_eq_true, if_false, if_true]
  · show (body.data.take 400).length ≤ 400
    rw [List.length_take]
    omega

/-- C2 witness: the amended claim evaluated for a 403 answer with three
configured attempts. -/
theorem C2_witness :
    callGrokApi "key" 3 180 (fun _ => none) (fun _ => .response 403 "denied" [])
        = ((none, some (if (403 : Nat) == 403 then authMsg else statusMsg 403 "denied")), 1, 0)
      ∧ (truncate400 "denied").data.length ≤ 400 :=
  C2_amended "key" 3 180 (fun _ => none) (fun _ => .response 403 "denied" []) 403 "denied" []
    (by decide) (by omega) rfl (by decide)

/-! ### Claim C7 -/

/-- A frame whose delta content contains an extractable URL, for the C7
witness. -/
def c7Chunk : Json :=
  .obj [("choices", .arr [.obj [("delta",
    .obj [("content", .str "ok https://cdn.example/w.mp4 end")])]])]

/-- Parse oracle for the C7 witness stream. -/
def c7Parse : String → Option Json := fun s => if s == "f2" then some c7Chunk else none

/-- Outcome schedule for the C7 witness: the first attempt times out, the
second succeeds. -/
def c7Outcomes : Nat → AttemptOutcome :=
  fun i => if i == 0 then .timeout else .response 200 "" ["data: f2"]

/-- C7: when every one of the configured attempts times out, the call makes
all of them, the final message names the configured timeout value, and
exactly `maxAttempts - 1` unit delays are taken (none after the last
failure); an attempt whose body completes — in particular a success —
returns immediately, with one delay per preceding failed attempt and none
after. -/
theorem C7_timeout_retry (apiKey : String) (mA tS : Nat) (parse : String → Option Json)
    (hkey : apiKey ≠ "") (hmA : 1 ≤ mA) :
    callGrokApi apiKey mA tS parse (fun _ => .timeout)
        = ((none, some (timeoutMsg tS)), mA, mA - 1)
      ∧ (∃ p q, timeoutMsg tS = p ++ toString tS ++ q)
      ∧ (∀ (outcomes : Nat → AttemptOutcome) (k : Nat) (url err : Option String), k < mA →
          (∀ j, j < k → ∃ e, runAttempt tS parse (outcomes j) = .retryable e) →
          runAttempt tS parse (outcomes k) = .done url err →
          callGrokApi apiKey mA tS parse outcomes = ((url, err), k + 1, k)) := by
  have hk : (apiKey == "") = false := by simpa using hkey
  refine ⟨?_, ⟨"请求超时 (", "秒)", rfl⟩, ?_⟩
  · unfold callGrokApi
    rw [hk]
    exact callLoop_all_timeout tS parse _ (fun _ => rfl) mA 0 hmA
  · intro outcomes k url err hlt hre hdone
    unfold callGrokApi
    rw [hk]
    refine callLoop_done_at tS parse outcomes url err k 0 mA hlt (fun j hj => ?_) ?_
    · rw [Nat.zero_add]
      exact hre j hj
    · rw [Nat.zero_add]
      exact hdone

/-- C7 witness: with three configured attempts, an all-timeout run makes 3
attempts with 2 delays and names the 180-second timeout; a run whose second
attempt succeeds returns that attempt's URL after 2 attempts and 1 delay. -/
theorem C7_witness :
    callGrokApi "key" 3 180 c7Parse (fun _ => .timeout)
        = ((none, some (timeoutMsg 180)), 3, 2)
      ∧ callGrokApi "key" 3 180 c7Parse c7Outcomes
        = ((some "https://cdn.example/w.mp4", none), 2, 1) :=
  ⟨(C7_timeout_retry "key" 3 180 c7Parse (by decide) (by omega)).1,
   (C7_timeout_retry "key" 3 180 c7Parse (by decide) (by omega)).2.2 c7Outcomes 1
     (some "https://cdn.example/w.mp4") none (by omega)
     (fun j hj => ⟨timeoutMsg 180, by
       have hj0 : j = 0 := by omega
       subst hj0
       rfl⟩)
     rfl⟩

/-! ### Claim C6 -/

/-- A parse oracle on which every payload fails to decode, for the C6
witness. -/
def c6Parse : String → Option Json := fun _ => none

/-- C6: during stream reading, a line not prefixed by the `data:` marker is
ignored; the `[DONE]` sentinel stops reading at once, dropping the rest of
the stream; a payload that fails JSON decoding is skipped and the loop
continues; a 200-status attempt always completes in that single attempt (a
decode failure never counts as a transport failure); and a stream that ends
without an extracted URL gets one final extraction pass over the full
accumulated text, whose miss is the no-extractable-URL message, distinct
from every transport-failure message. -/
theorem C6_stream_reading (parse : String → Option Json) (line : String)
    (rest acc lines : List String) (tS s2 mA : Nat) (body e2 apiKey : String)
    (outcomes : Nat → AttemptOutcome) :
    (line ≠ "" → lcStartsWith (strTrim line).data "data:".data = false →
        streamLoop parse (line :: rest) acc = streamLoop parse rest acc)
      ∧ (line ≠ "" → lcStartsWith (strTrim line).data "data:".data = true →
          strTrim ⟨afterFirst (strTrim line).data "data:".data⟩ = "[DONE]" →
          streamLoop parse (line :: rest) acc = (none, acc))
      ∧ (line ≠ "" → lcStartsWith (strTrim line).data "data:".data = true →
          strTrim ⟨afterFirst (strTrim line).data "data:".data⟩ ≠ "[DONE]" →
          parse (strTrim ⟨afterFirst (strTrim line).data "data:".data⟩) = none →
          streamLoop parse (line :: rest) acc = streamLoop parse rest acc)
      ∧ (∀ accEnd, streamLoop parse lines [] = (none, accEnd) →
          readStream parse lines =
            (match tryContentExtraction (strJoin accEnd) with
             | some u => (some u, none)
             | none => (none, some noUrlMsg)))
      ∧ (apiKey ≠ "" → 1 ≤ mA → outcomes 0 = .response 200 body lines →
          (callGrokApi apiKey mA tS parse outcomes).2 = (1, 0))
      ∧ (noUrlMsg ≠ timeoutMsg tS ∧ noUrlMsg ≠ authMsg ∧ noUrlMsg ≠ statusMsg s2 body
          ∧ noUrlMsg ≠ excMsg e2 ∧ noUrlMsg ≠ allFailedMsg) := by
  refine ⟨?_, ?_, ?_, ?_, ?_, ?_⟩
  · intro hne hpre
    have h1 : (line == "") = false := by simpa using hne
    simp [streamLoop, h1, hpre]
  · intro hne hpre hdone
    have h1 : (line == "") = false := by simpa using hne
    simp [streamLoop, h1, hpre, hdone]
  · intro hne hpre hnd hparse
    have h1 : (line == "") = false := by simpa using hne
    have h3 : (strTrim ⟨afterFirst (strTrim line).data "data:".data⟩ == "[DONE]") = false := by
      simpa using hnd
    simp [streamLoop, h1, hpre, h3, hparse]
  · intro accEnd hsl
    rw [readStream, hsl]
  · intro hkey hmA h0
    have hk : (apiKey == "") = false := by simpa using hkey
    obtain ⟨r, rfl⟩ : ∃ r, mA = r + 1 := ⟨mA - 1, by omega⟩
    have hred : runAttempt tS parse (AttemptOutcome.response 200 body lines)
        = (match readStream parse lines with
           | (some url, _) => AttemptStep.done (some url) none
           | (none, e) => AttemptStep.done none e) := rfl
    unfold callGrokApi
    rw [hk]
    cases hr : readStream parse lines with
    | mk a b =>
        cases a with
        | some u =>
            rw [callLoop_first_done tS parse outcomes 0 r (some u) none
              (by rw [h0, hred, hr])]
            rfl
        | none =>
            rw [callLoop_first_done tS parse outcomes 0 r none b
              (by rw [h0, hred, hr])]
            rfl
  · exact ⟨strNeOfTake4 _ _ (show (['A', 'P', 'I', '响'] : List Char)
        ≠ ['请', '求', '超', '时'] from by decide),
      strNeOfTake4 _ _ (show (['A', 'P', 'I', '响'] : List Char)
        ≠ ['A', 'P', 'I', '访'] from by decide),
      strNeOfTake4 _ _ (show (['A', 'P', 'I', '响'] : List Char)
        ≠ ['A', 'P', 'I', '请'] from by decide),
      strNeOfTake4 _ _ (show (['A', 'P', 'I', '响'] : List Char)
        ≠ ['请', '求', '异', '常'] from by decide),
      strNeOfTake4 _ _ (show (['A', 'P', 'I', '响'] : List Char)
        ≠ ['所', '有', '重', '试'] from by decide)⟩

/-- C6 witness: each part of the claim evaluated on concrete streams — an
ignored `event:` line, an early `[DONE]` stop that drops a later frame, a
skipped undecodable frame, the final-pass miss message, and a one-attempt
200 response. -/
theorem C6_witness :
    streamLoop c6Parse ["event: x", "data: j1"] [] = streamLoop c6Parse ["data: j1"] []
      ∧ streamLoop c6Parse ["data: [DONE]", "data: f9"] ["a"] = (none, ["a"])
      ∧ streamLoop c6Parse ["data: junk", "data: j1"] [] = streamLoop c6Parse ["data: j1"] []
      ∧ readStream c6Parse ["data: junk"] =
          (match tryContentExtraction (strJoin ([] : List String)) with
           | some u => (some u, none)
           | none => (none, some noUrlMsg))
      ∧ (callGrokApi "key" 1 180 c6Parse (fun _ => .response 200 "" [])).2 = (1, 0)
      ∧ noUrlMsg ≠ timeoutMsg 180 :=
  ⟨(C6_stream_reading c6Parse "event: x" ["data: j1"] [] [] 180 500 1 "" "boom" "key"
      (fun _ => .response 200 "" [])).1 (by decide) rfl,
   (C6_stream_reading c6Parse "data: [DONE]" ["data: f9"] ["a"] [] 180 500 1 "" "boom" "key"
      (fun _ => .response 200 "" [])).2.1 (by decide) rfl rfl,
   (C6_stream_reading c6Parse "data: junk" ["data: j1"] [] [] 180 500 1 "" "boom" "key"
      (fun _ => .response 200 "" [])).2.2.1 (by decide) rfl (by decide) rfl,
   (C6_stream_reading c6Parse "x" [] [] ["data: junk"] 180 500 1 "" "boom" "key"
      (fun _ => .response 200 "" [])).2.2.2.1 [] rfl,
   (C6_stream_reading c6Parse "x" [] [] [] 180 500 1 "" "boom" "key"
      (fun _ => .response 200 "" [])).2.2.2.2.1 (by decide) (by omega) rfl,
   (C6_stream_reading c6Parse "x" [] [] [] 180 500 1 "" "boom" "key"
      (fun _ => .response 200 "" [])).2.2.2.2.2.1⟩

/-! ### Claim C4 -/

/-- Case characterisation of `rateCheck`: the window-reset decision first,
then the limit check on the effective count. -/
theorem rateCheck_eq (m w : Nat) (stored : Option Bucket) (now : ℤ) :
    rateCheck m w stored now =
      (if now - (stored.getD ⟨now, 0⟩).windowStart ≥ (w : ℤ) then
        (if 0 ≥ m then (some (rateLimitMsg m w), stored) else (none, some ⟨now, 1⟩))
       else
        (if (stored.getD ⟨now, 0⟩).count ≥ m then (some (rateLimitMsg m w), stored)
         else (none, some ⟨(stored.getD ⟨now, 0⟩).windowStart,
           (stored.getD ⟨now, 0⟩).count + 1⟩))) := by
  by_cases hc : now - (stored.getD ⟨now, 0⟩).windowStart ≥ (w : ℤ)
  · simp only [rateCheck, if_pos hc]
  · simp only [rateCheck, if_neg hc]

/-- C4: the rate limiter treats an expired window as fresh before the limit
check; at any check time strictly inside the window (`now - windowStart <
windowSeconds`) the first `maxCalls` checks succeed, each incrementing the
stored count by one; a further check inside the same window is rejected
with a message naming the limit and the window, leaving the store
untouched; and since the limit check precedes the increment, any bucket the
check stores has count at most `maxCalls`. -/
theorem C4_rate_limiter (m w : Nat) (b : Bucket) (t now : ℤ) :
    (now - b.windowStart ≥ (w : ℤ) → 0 < m →
        rateCheck m w (some b) now = (none, some ⟨now, 1⟩))
      ∧ (∀ k : Nat, now - t < (w : ℤ) → k < m →
          rateCheck m w (some ⟨t, k⟩) now = (none, some ⟨t, k + 1⟩))
      ∧ (now - t < (w : ℤ) →
          rateCheck m w (some ⟨t, m⟩) now = (some (rateLimitMsg m w), some ⟨t, m⟩))
      ∧ (∃ p q r2, rateLimitMsg m w = p ++ toString m ++ q ++ toString w ++ r2)
      ∧ (∀ stored b2, rateCheck m w stored now = (none, some b2) → b2.count ≤ m)
      ∧ (∀ stored msg bu, rateCheck m w stored now = (some msg, bu) → bu = stored) := by
  refine ⟨?_, ?_, ?_, ⟨"本群调用已达上限（", "次/", "秒），请稍后再试", rfl⟩, ?_, ?_⟩
  · intro hwin hm
    rw [rateCheck_eq]
    simp only [Option.getD_some]
    rw [if_pos hwin, if_neg (by omega : ¬ ((0 : Nat) ≥ m))]
  · intro k hin hk
    rw [rateCheck_eq]
    simp only [Option.getD_some]
    rw [if_neg (by omega : ¬ (now - t ≥ (w : ℤ))), if_neg (by omega : ¬ (k ≥ m))]
  · intro hin
    rw [rateCheck_eq]
    simp only [Option.getD_some]
    rw [if_neg (by omega : ¬ (now - t ≥ (w : ℤ))), if_pos (le_refl m)]
  · intro stored b2 h
    rw [rateCheck_eq] at h
    split at h
    next hge =>
        split at h
        next h0 => exact absurd h (by simp)
        next h0 =>
            simp only [Prod.mk.injEq, Option.some.injEq] at h
            obtain ⟨-, h2⟩ := h
            cases h2
            exact show 1 ≤ m by omega
    next hlt =>
        split at h
        next hcnt => exact absurd h (by simp)
        next hcnt =>
            simp only [Prod.mk.injEq, Option.some.injEq] at h
            obtain ⟨-, h2⟩ := h
            cases h2
            exact show (stored.getD ⟨now, 0⟩).count + 1 ≤ m by omega
  · intro stored msg bu h
    rw [rateCheck_eq] at h
    split at h
    next hge =>
        split at h
        next h0 =>
            simp only [Prod.mk.injEq, Option.some.injEq] at h
            exact h.2.symm
        next h0 => exact absurd h (by simp)
    next hlt =>
        split at h
        next hcnt =>
            simp only [Prod.mk.injEq, Option.some.injEq] at h
            exact h.2.symm
        next hcnt => exact absurd h (by simp)

/-- C4 witness: the limiter evaluated at concrete times — an expired window
resets and admits, counts 2 then 5 behave as stated partway through a live
window (190 seconds elapsed of 3600), the saturated bucket is rejected with
the parameterised message, and the count bound and no-mutation-on-reject
parts at a concrete store. -/
theorem C4_witness :
    rateCheck 5 3600 (some ⟨0, 4⟩) 4000 = (none, some ⟨(4000 : ℤ), 1⟩)
      ∧ rateCheck 5 3600 (some ⟨(10 : ℤ), 2⟩) 200 = (none, some ⟨(10 : ℤ), 3⟩)
      ∧ rateCheck 5 3600 (some ⟨(10 : ℤ), 5⟩) 200
        = (some (rateLimitMsg 5 3600), some ⟨(10 : ℤ), 5⟩)
      ∧ (⟨(10 : ℤ), 3⟩ : Bucket).count ≤ 5
      ∧ (some ⟨(10 : ℤ), 5⟩ : Option Bucket) = some ⟨(10 : ℤ), 5⟩ :=
  ⟨(C4_rate_limiter 5 3600 ⟨0, 4⟩ 10 4000).1 (by decide) (by omega),
   (C4_rate_limiter 5 3600 ⟨0, 4⟩ 10 200).2.1 2 (by decide) (by omega),
   (C4_rate_limiter 5 3600 ⟨0, 4⟩ 10 200).2.2.1 (by decide),
   (C4_rate_limiter 5 3600 ⟨0, 4⟩ 10 10).2.2.2.2.1 (some ⟨(10 : ℤ), 2⟩) ⟨(10 : ℤ), 3⟩ (by decide),
   (C4_rate_limiter 5 3600 ⟨0, 4⟩ 10 10).2.2.2.2.2 (some ⟨(10 : ℤ), 5⟩) (rateLimitMsg 5 3600)
     (some ⟨(10 : ℤ), 5⟩) (by decide)⟩

/-! ### Claim C5 -/

/-- C5: a generate request finding an existing in-flight entry for the user
is answered busy without starting a task or touching the entry; the
completion cleanup removes the entry exactly when it still stores the
completing task's identifier, so a stale completion never removes a newer
task's entry, and a second cleanup finds nothing to remove.  At most one
entry per user exists by construction: the store maps each user to at most
one task identifier. -/
theorem C5_single_flight (entry : Option String)
    (acc : Except String (Option String × Option Bucket)) (bOnE : Option Bucket)
    (img : Bool) (tid t t2 : String) :
    ((checkGroupAccess acc bOnE).1 = none → entry.isSome = true →
        cmdGenerate acc bOnE entry img tid
          = (.busy, (checkGroupAccess acc bOnE).2, entry, false))
      ∧ taskCleanup (some t) t = none
      ∧ (t2 ≠ t → taskCleanup (some t2) t = some t2)
      ∧ taskCleanup none t = none := by
  refine ⟨?_, by simp [taskCleanup], ?_, rfl⟩
  · intro ha hs
    simp [cmdGenerate, ha, hs]
  · intro hne
    have h2 : (t2 == t) = false := by simpa using hne
    simp [taskCleanup, h2]

/-- C5 witness: the guard evaluated at a concrete busy request and concrete
matching, stale and absent cleanups. -/
theorem C5_witness :
    cmdGenerate (.ok (none, none)) none (some "t01") true "t99"
        = (.busy, (checkGroupAccess (.ok (none, none)) none).2, some "t01", false)
      ∧ taskCleanup (some "t01") "t01" = none
      ∧ taskCleanup (some "t02") "t01" = some "t02"
      ∧ taskCleanup none "t01" = none :=
  ⟨(C5_single_flight (some "t01") (.ok (none, none)) none true "t99" "x" "y").1 rfl rfl,
   (C5_single_flight (some "t01") (.ok (none, none)) none true "t99" "t01" "y").2.1,
   (C5_single_flight (some "t01") (.ok (none, none)) none true "t99" "t01" "t02").2.2.1
     (by decide),
   (C5_single_flight (some "t01") (.ok (none, none)) none true "t99" "t01" "y").2.2.2⟩

/-! ### Claim C9 -/

/-- C9: for a group message passing the whitelist/blacklist check with rate
limiting enabled, the rate counter is consumed during the access check,
which runs before the busy check and the image check: a request then
rejected as busy or for lacking an image still leaves the group's bucket
advanced to the rate check's incremented value, and that value is one more
than the (possibly reset) previous count. -/
theorem C9_rate_consumed_on_rejected_request (cfg : AccessCfg) (g : String)
    (stored : Option Bucket) (now : ℤ) (b2 : Bucket) (entry : Option String)
    (hasImage : Bool) (tid : String)
    (hwl : (cfg.groupControlMode == "whitelist" && !(cfg.groupList.contains g)) = false)
    (hbl : (cfg.groupControlMode == "blacklist" && cfg.groupList.contains g) = false)
    (hrl : cfg.rateLimitEnabled = true)
    (hok : rateCheck cfg.rateLimitMaxCalls cfg.rateLimitWindowSeconds stored now
      = (none, some b2))
    (hblocked : entry.isSome = true ∨ hasImage = false) :
    cmdGenerateRun cfg (some g) stored now entry hasImage tid
        = ((if entry.isSome then Reply.busy else Reply.needImage), some b2, entry, false)
      ∧ (∀ st b3, rateCheck cfg.rateLimitMaxCalls cfg.rateLimitWindowSeconds st now
          = (none, some b3) →
          b3.count = (if now - (st.getD ⟨now, 0⟩).windowStart
              ≥ (cfg.rateLimitWindowSeconds : ℤ)
            then 0 else (st.getD ⟨now, 0⟩).count) + 1) := by
  constructor
  · have hbody : checkGroupAccessBody cfg (some g) stored now = (none, some b2) := by
      simp only [checkGroupAccessBody]
      rw [hwl, hbl, hrl]
      simp only [Bool.false_eq_true, if_false, if_true, hok]
    unfold cmdGenerateRun cmdGenerate checkGroupAccess
    rw [hbody]
    cases hi : entry.isSome with
    | true => simp [hi]
    | false =>
        have himg : hasImage = false := by
          rcases hblocked with hb | hb
          · rw [hi] at hb; exact absurd hb (by simp)
          · exact hb
        simp [hi, himg]
  · intro st b3 h
    rw [rateCheck_eq] at h
    split at h
    next hge =>
        split at h
        next h0 => exact absurd h (by simp)
        next h0 =>
            simp only [Prod.mk.injEq, Option.some.injEq] at h
            obtain ⟨-, h2⟩ := h
            cases h2
            rw [if_pos hge]
    next hlt =>
        split at h
        next hcnt => exact absurd h (by simp)
        next hcnt =>
            simp only [Prod.mk.injEq, Option.some.injEq] at h
            obtain ⟨-, h2⟩ := h
            cases h2
            rw [if_neg hlt]

/-- C9 witness: a concrete busy-rejected request in mode `off` with rate
limiting on still advances the group bucket from count 2 to count 3. -/
theorem C9_witness :
    cmdGenerateRun ⟨"off", [], true, 3600, 5⟩ (some "g1") (some ⟨0, 2⟩) 10 (some "t0") true "t9"
        = ((if (some "t0" : Option String).isSome then Reply.busy else Reply.needImage),
            some ⟨(0 : ℤ), 3⟩, some "t0", false)
      ∧ (∀ st b3, rateCheck 5 3600 st 10 = (none, some b3) →
          b3.count = (if (10 : ℤ) - (st.getD ⟨10, 0⟩).windowStart ≥ ((3600 : Nat) : ℤ)
            then 0 else (st.getD ⟨10, 0⟩).count) + 1) :=
  C9_rate_consumed_on_rejected_request ⟨"off", [], true, 3600, 5⟩ "g1" (some ⟨0, 2⟩) 10
    ⟨0, 3⟩ (some "t0") true "t9" rfl rfl rfl (by decide) (Or.inl rfl)

/-! ### Claim C10 -/

/-- C10: an exception raised inside the group-access and rate-limit check
makes the check return no error message — the request proceeds exactly as
if access had been granted with the store untouched, and in particular an
internal failure of the access check never yields an access rejection. -/
theorem C10_fail_open (e : String) (bOnE : Option Bucket) (entry : Option String)
    (img : Bool) (tid : String) :
    checkGroupAccess (.error e) bOnE = (none, bOnE)
      ∧ cmdGenerate (.error e) bOnE entry img tid
        = cmdGenerate (.ok (none, bOnE)) bOnE entry img tid
      ∧ (∀ msg bu ent st, cmdGenerate (.error e) bOnE entry img tid
          ≠ (.rejected msg, bu, ent, st)) := by
  refine ⟨rfl, rfl, ?_⟩
  intro msg bu ent st h
  by_cases hi : entry.isSome = true
  · simp [cmdGenerate, checkGroupAccess, hi] at h
  · have hi2 : entry.isSome = false := by simpa using hi
    by_cases hg : img = true
    · simp [cmdGenerate, checkGroupAccess, hi2, hg] at h
    · have hg2 : img = false := by simpa using hg
      simp [cmdGenerate, checkGroupAccess, hi2, hg2] at h

/-- C10 witness: a concrete failing access check grants access — the
request with an image and no in-flight entry is acknowledged, not
rejected. -/
theorem C10_witness :
    checkGroupAccess (.error "boom") none = (none, none)
      ∧ cmdGenerate (.error "boom") none none true "t1"
        = cmdGenerate (.ok (none, none)) none none true "t1"
      ∧ cmdGenerate (.error "boom") none none true "t1"
        ≠ (.rejected "denied", none, none, false) :=
  ⟨(C10_fail_open "boom" none none true "t1").1,
   (C10_fail_open "boom" none none true "t1").2.1,
   (C10_fail_open "boom" none none true "t1").2.2 "denied" none none false⟩

end GrokVideo
